import Mathlib

/-!
Verification development for the OPC UA Modeler nodeset parser.

This file gives a shallow embedding of the repository's nodeset-parsing core
(the `NodesetParser` service and `extractNamespaces` in the file-import
service) and proves the frozen specification claims about it.

Modelling conventions:
* XML documents are modelled as already-parsed trees (`XNode`); the browser's
  `DOMParser` is external platform code.  Its documented behaviour -- returning
  a document that contains a `parsererror` element exactly when the input text
  is not well-formed XML -- is reflected by working at the tree level and
  testing for a `parsererror` element, exactly as the source does.
* JavaScript `Map` objects are modelled as association lists whose `jset`
  replaces an existing key in place (JS `Map.set` keeps insertion order) and
  whose iteration order is list order.
* JavaScript string truthiness (`!s`, `s || d`) is modelled by explicit
  emptiness tests; `String.prototype.includes`, `trim`, `toLowerCase` and the
  last element of `split(':')` are modelled by executable character-list
  functions below.
* Node `children` lists hold the node-map keys of the child nodes: in the
  source, children are shared object references into the node map keyed by
  `nodeId`, so keys are a faithful pure representation of that relation.
* `parseInt` on the `ValueRank` attribute is modelled by an optional integer
  (a non-numeric string, which yields `NaN` in JavaScript, is collapsed to
  `none`; no claim concerns `valueRank`).
-/

namespace OpcUaModeler

/-- XML tree node: an element with a tag, attribute list and child list, or a
text node.  A parsed document is represented as a synthetic wrapper element
whose children are the document's top-level nodes, so that `querySelector` on
a document (which searches every element, root included) coincides with
`querySelector` on the wrapper (which searches strict descendants). -/
inductive XNode where
  | elem (tag : String) (attrs : List (String × String)) (children : List XNode)
  | text (s : String)

mutual

/-- DOM `textContent` of a single node: the concatenation of all descendant
text, in document order. -/
def textContent : XNode → String
  | .text s => s
  | .elem _ _ k => textContentList k

/-- Text content of a list of XML nodes in document order. -/
def textContentList : List XNode → String
  | [] => ""
  | c :: cs => textContent c ++ textContentList cs

end

mutual

/-- All elements with the given tag in the subtree rooted at the node (the
node itself included), in document (pre-order) order. -/
def matchedIn (tag : String) : XNode → List XNode
  | .text _ => []
  | .elem t a k => (if t = tag then [XNode.elem t a k] else []) ++ matchedInList tag k

/-- All elements with the given tag in a forest, in document order. -/
def matchedInList (tag : String) : List XNode → List XNode
  | [] => []
  | c :: cs => matchedIn tag c ++ matchedInList tag cs

end

/-- DOM `querySelectorAll` with a plain tag selector: all matching strict
descendants of the node, in document order. -/
def querySelectorAll (tag : String) : XNode → List XNode
  | .text _ => []
  | .elem _ _ k => matchedInList tag k

/-- DOM `querySelector` with a plain tag selector: the first matching strict
descendant, if any. -/
def querySelector (tag : String) (x : XNode) : Option XNode :=
  (querySelectorAll tag x).head?

/-- DOM `getAttribute`: the value of the named attribute, if present. -/
def getAttribute (name : String) : XNode → Option String
  | .text _ => none
  | .elem _ attrs _ => (attrs.find? (fun p => p.1 == name)).map (·.2)

mutual

/-- Elements matching the CSS child-combinator selector
`UANodeSet > NamespaceUris > Uri` in the subtree rooted at a node, given the
tags of the node's parent (`p`) and grandparent (`gp`), in document order. -/
def uaUriIn (gp p : String) : XNode → List XNode
  | .text _ => []
  | .elem t a k =>
      (if gp = "UANodeSet" && p = "NamespaceUris" && t = "Uri" then
        [XNode.elem t a k] else []) ++ uaUriInList p t k

/-- Elements matching `UANodeSet > NamespaceUris > Uri` in a forest whose
members share the parent tag `p` and grandparent tag `gp`. -/
def uaUriInList (gp p : String) : List XNode → List XNode
  | [] => []
  | c :: cs => uaUriIn gp p c ++ uaUriInList gp p cs

end

/-- The elements matched by `querySelectorAll('UANodeSet > NamespaceUris > Uri')`
on a document: the document wrapper's children have no element parent, so the
ancestor tags start out as non-matching empty strings. -/
def docUaNsUris : XNode → List XNode
  | .text _ => []
  | .elem _ _ k => uaUriInList "" "" k

/-- JavaScript-style whitespace test for `trim` (ASCII whitespace suffices for
the documents the parser handles). -/
def isJsWs (c : Char) : Bool :=
  c == ' ' || c == '\t' || c == '\n' || c == '\r'

/-- Model of JavaScript `String.prototype.trim`. -/
def jsTrim (s : String) : String :=
  ⟨((s.data.dropWhile isJsWs).reverse.dropWhile isJsWs).reverse⟩

/-- Does the character list start with the given pattern? -/
def charsStartWith : List Char → List Char → Bool
  | [], _ => true
  | _ :: _, [] => false
  | p :: ps, c :: cs => p == c && charsStartWith ps cs

/-- Does the character list contain the pattern as a contiguous run? -/
def charsContain (pat : List Char) : List Char → Bool
  | [] => charsStartWith pat []
  | c :: cs => charsStartWith pat (c :: cs) || charsContain pat cs

/-- Model of JavaScript `String.prototype.includes`. -/
def jsIncludes (s pat : String) : Bool :=
  charsContain pat.data s.data

/-- Model of JavaScript `String.prototype.toLowerCase` (ASCII range). -/
def toLowerStr (s : String) : String :=
  ⟨s.data.map Char.toLower⟩

/-- The last element of `s.split(':')`: the characters after the last colon,
or the whole string when it has no colon. -/
def lastColonPart (s : String) : String :=
  ⟨((s.data.reverse.takeWhile (fun c => c ≠ ':')).reverse)⟩

/-- Leading decimal-digit run of a character list, as a number, if nonempty. -/
def digitsVal (cs : List Char) : Option Nat :=
  let ds := cs.takeWhile (·.isDigit)
  if ds = [] then none else some (ds.foldl (fun n c => 10 * n + (c.toNat - 48)) 0)

/-- Model of JavaScript `parseInt` restricted to base 10, with `NaN` collapsed
to `none` (only used for the `ValueRank` attribute, which no claim concerns). -/
def jsParseInt (s : String) : Option Int :=
  match s.data.dropWhile isJsWs with
  | '-' :: rest => (digitsVal rest).map (fun n => -(n : Int))
  | '+' :: rest => (digitsVal rest).map (fun n => (n : Int))
  | cs => (digitsVal cs).map (fun n => (n : Int))

/-- Model of the JavaScript pattern `x || undefined` on an optional attribute
value: an empty string is falsy and collapses to `undefined`. -/
def truthyAttr : Option String → Option String
  | some s => if s = "" then none else some s
  | none => none

/-- Association-list model of a JavaScript `Map` with string keys. -/
abbrev JMap (α : Type) := List (String × α)

/-- JS `Map.set`: overwrite the value in place when the key is present
(preserving its insertion position), otherwise append the new entry. -/
def jset {α : Type} : JMap α → String → α → JMap α
  | [], k, v => [(k, v)]
  | (k', v') :: rest, k, v =>
      if k' = k then (k, v) :: rest else (k', v') :: jset rest k v

/-- JS `Map.get`: the value stored at the key, if any. -/
def jget {α : Type} (m : JMap α) (k : String) : Option α :=
  (m.find? (fun p => p.1 == k)).map (·.2)

/-- JS `Map.has`: is some entry stored at the key? -/
def jhas {α : Type} (m : JMap α) (k : String) : Bool :=
  (m.find? (fun p => p.1 == k)).isSome

/- ### The OPC UA data model (from `opcua.types`). -/

/-- OPC UA node classes (the `NodeClass` enum of the source). -/
inductive NodeClass where
  | Object | Variable | Method | ObjectType | VariableType | ReferenceType | DataType | View
  deriving DecidableEq

/-- OPC UA reference (the `OpcUaReference` interface of the source). -/
structure OpcUaReference where
  referenceType : String
  isForward : Bool
  targetNodeId : String
  deriving DecidableEq

/-- OPC UA node (the `OpcUaNode` interface of the source).  `children` holds
node-map keys (see the modelling conventions above). -/
structure OpcUaNode where
  nodeId : String
  browseName : String
  displayName : String
  nodeClass : NodeClass
  description : Option String
  dataType : Option String
  valueRank : Option Int
  modellingRule : Option String
  type : Option String
  typeDefinition : Option String
  derivedFrom : Option String
  references : List OpcUaReference
  children : List String
  deriving DecidableEq

/-- Parse result (the `OpcUaNodeset` interface of the source). -/
structure OpcUaNodeset where
  fileName : String
  namespaceUri : String
  namespaceIndex : Nat
  nodes : JMap OpcUaNode
  rootNodes : List OpcUaNode
  deriving DecidableEq

/-- Namespace entry (the `Namespace` interface of the source). -/
structure Namespace where
  index : Nat
  uri : String
  deriving DecidableEq

/-- The two symbol-table maps that the source keeps as `NodesetParser`
instance fields (`aliasMap` and `nodeNameMap`). -/
structure ParserState where
  aliasMap : JMap String
  nodeNameMap : JMap String
  deriving DecidableEq

/-- A freshly constructed `NodesetParser`: both maps empty. -/
def freshState : ParserState := ⟨[], []⟩

/- ### The parser (from `NodesetParser`). -/

/-- The eight recognized element tags, in the iteration order of the source's
`nodeTypes` array (used both by `processNodeset` and `parseNodeNames`). -/
def nodeTypes : List String :=
  ["UAObject", "UAVariable", "UAMethod", "UAObjectType",
   "UAVariableType", "UAReferenceType", "UADataType", "UAView"]

/-- Tag-to-class mapping of `getNodeClass`, with its `Object` fallback. -/
def getNodeClass (nodeType : String) : NodeClass :=
  if nodeType = "UAObject" then .Object
  else if nodeType = "UAVariable" then .Variable
  else if nodeType = "UAMethod" then .Method
  else if nodeType = "UAObjectType" then .ObjectType
  else if nodeType = "UAVariableType" then .VariableType
  else if nodeType = "UAReferenceType" then .ReferenceType
  else if nodeType = "UADataType" then .DataType
  else if nodeType = "UAView" then .View
  else .Object

/-- `resolveNodeId`: alias map first, then node-name map, then the last
`split(':')` component when nonempty, then the id itself; the empty id is
returned unchanged by the initial falsy guard. -/
def resolveNodeId (st : ParserState) (nodeId : String) : String :=
  if nodeId = "" then ""
  else
    match jget st.aliasMap nodeId with
    | some a => a
    | none =>
        match jget st.nodeNameMap nodeId with
        | some n => n
        | none => if lastColonPart nodeId = "" then nodeId else lastColonPart nodeId

/-- `getElementText`: text of a nested `Text` element when that text is truthy
(nonempty before trimming), otherwise the element's own text content; empty
when the named child element is absent. -/
def getElementText (parent : XNode) (tagName : String) : String :=
  match querySelector tagName parent with
  | none => ""
  | some element =>
      match querySelector "Text" element with
      | some textElement =>
          if textContent textElement ≠ "" then jsTrim (textContent textElement)
          else jsTrim (textContent element)
      | none => jsTrim (textContent element)

/-- One `Alias` element of the `parseAliases` loop: insert the entry keyed by
the alias's trimmed text (the raw node id) with the `Alias` attribute as the
value, skipping it when the attribute or the text is falsy. -/
def parseAliasStep (st : ParserState) (al : XNode) : ParserState :=
  match getAttribute "Alias" al with
  | some aliasName =>
      if aliasName ≠ "" && jsTrim (textContent al) ≠ "" then
        { st with aliasMap := jset st.aliasMap (jsTrim (textContent al)) aliasName }
      else st
  | none => st

/-- `parseAliases`: fold the `Aliases/Alias` entries into `aliasMap`. -/
def parseAliases (st : ParserState) (uaNodeSet : XNode) : ParserState :=
  match querySelector "Aliases" uaNodeSet with
  | none => st
  | some aliasesElement =>
      (querySelectorAll "Alias" aliasesElement).foldl parseAliasStep st

/-- The recognized node elements of a `UANodeSet` element, each paired with
its tag, in the source's processing order: all elements of the first tag in
document order, then the second tag, and so on. -/
def taggedNodeElements (uaNodeSet : XNode) : List (String × XNode) :=
  nodeTypes.foldl
    (fun acc t => acc ++ (querySelectorAll t uaNodeSet).map (fun e => (t, e))) []

/-- One element of the `parseNodeNames` loop: record `(NodeId, BrowseName)`
when both attributes are present with truthy (nonempty) values. -/
def parseNodeNameStep (st : ParserState) (te : String × XNode) : ParserState :=
  match getAttribute "NodeId" te.2, getAttribute "BrowseName" te.2 with
  | some nodeId, some browseName =>
      if nodeId ≠ "" && browseName ≠ "" then
        { st with nodeNameMap := jset st.nodeNameMap nodeId browseName }
      else st
  | _, _ => st

/-- `parseNodeNames`: record `(NodeId, BrowseName)` for every recognized node
element that carries both attributes with truthy (nonempty) values.  The
source iterates the same `nodeTypes` tags with `querySelectorAll`, which is
exactly `taggedNodeElements`. -/
def parseNodeNames (st : ParserState) (uaNodeSet : XNode) : ParserState :=
  (taggedNodeElements uaNodeSet).foldl parseNodeNameStep st

/-- `parseNode`: build one `OpcUaNode` from a recognized element, or `none`
when the `NodeId` attribute is absent or falsy (the silent-skip policy). -/
def parseNode (st : ParserState) (xmlNode : XNode) (nodeType : String) : Option OpcUaNode :=
  match getAttribute "NodeId" xmlNode with
  | none => none
  | some nodeId =>
      if nodeId = "" then none
      else
        let nodeClass := getNodeClass nodeType
        let displayName := getElementText xmlNode "DisplayName"
        let description := getElementText xmlNode "Description"
        let browseName :=
          match getAttribute "BrowseName" xmlNode with
          | some b => if b = "" then displayName else b
          | none => displayName
        let references : List OpcUaReference :=
          match querySelector "References" xmlNode with
          | none => []
          | some referencesElement =>
              (querySelectorAll "Reference" referencesElement).filterMap
                (fun ref =>
                  let targetNodeId := jsTrim (textContent ref)
                  if targetNodeId = "" then none
                  else some {
                    referenceType :=
                      match getAttribute "ReferenceType" ref with
                      | some rt => if rt = "" then "References" else rt
                      | none => "References"
                    isForward := !(getAttribute "IsForward" ref == some "false")
                    targetNodeId })
        let dataType := truthyAttr (getAttribute "DataType" xmlNode)
        let valueRank := (truthyAttr (getAttribute "ValueRank" xmlNode)).bind jsParseInt
        let parentNodeId := truthyAttr (getAttribute "ParentNodeId" xmlNode)
        let derivedFromId :=
          (references.find? (fun r => r.referenceType == "HasSubtype" && !r.isForward)).map
            (·.targetNodeId)
        let typeDefRef :=
          references.find? (fun r => r.referenceType == "HasTypeDefinition" && r.isForward)
        let modellingRuleRef :=
          references.find? (fun r => r.referenceType == "HasModellingRule" && r.isForward)
        some {
          nodeId
          browseName
          displayName
          nodeClass
          description := some description
          dataType := dataType.map (resolveNodeId st)
          valueRank
          modellingRule := (modellingRuleRef.map (·.targetNodeId)).map (resolveNodeId st)
          type := parentNodeId.map (resolveNodeId st)
          typeDefinition := (typeDefRef.map (·.targetNodeId)).map (resolveNodeId st)
          derivedFrom := derivedFromId.map (resolveNodeId st)
          references
          children := [] }

/-- One element of the node-map construction loop of `processNodeset`: parse
the element and `set` it into the map keyed by its raw node id (a later
duplicate overwrites an earlier one). -/
def extractNodeStep (st : ParserState) (nodes : JMap OpcUaNode) (te : String × XNode) :
    JMap OpcUaNode :=
  match parseNode st te.2 te.1 with
  | some n => jset nodes n.nodeId n
  | none => nodes

/-- The node-map construction loop of `processNodeset`, over the recognized
elements in processing order. -/
def extractNodes (st : ParserState) (es : List (String × XNode)) : JMap OpcUaNode :=
  es.foldl (extractNodeStep st) []

/-- The child keys contributed by `buildHierarchy` for one node: the targets
of its forward `HasComponent`, `Organizes` and `HasProperty` references whose
target exists in the node map, in reference order. -/
def hierChildren (nodes : JMap OpcUaNode) (n : OpcUaNode) : List String :=
  (n.references.filter
    (fun r =>
      (r.referenceType == "HasComponent" || r.referenceType == "Organizes" ||
       r.referenceType == "HasProperty") && r.isForward && jhas nodes r.targetNodeId)).map
    (·.targetNodeId)

/-- `buildHierarchy`: append each node's hierarchy child keys to its
`children` list.  The source mutates each map value in place while iterating;
keys never change during the pass, so existence checks against the input map
are faithful. -/
def buildHierarchy (nodes : JMap OpcUaNode) : JMap OpcUaNode :=
  nodes.map (fun kn => (kn.1, { kn.2 with children := kn.2.children ++ hierChildren nodes kn.2 }))

/-- `hasEventTypeReference`: some `HasSubtype` reference (in either direction)
whose target node id contains the substring `EventType`. -/
def hasEventTypeReference (node : OpcUaNode) : Bool :=
  node.references.any
    (fun ref => ref.referenceType == "HasSubtype" && jsIncludes ref.targetNodeId "EventType")

/-- `hasInterfaceReference`: some `HasInterface` reference, or some
`HasSubtype` reference (in either direction) whose target contains
`Interface`. -/
def hasInterfaceReference (node : OpcUaNode) : Bool :=
  node.references.any
    (fun ref => ref.referenceType == "HasInterface" ||
      (ref.referenceType == "HasSubtype" && jsIncludes ref.targetNodeId "Interface"))

/-- `createCategoryNode`: the synthetic category node (fields the source
leaves undefined are `none`; its `children` accumulate member node keys). -/
def createCategoryNode (name : String) (nodeClass : NodeClass) : OpcUaNode :=
  { nodeId := "Category_" ++ name
    browseName := name
    displayName := name
    nodeClass
    description := none
    dataType := none
    valueRank := none
    modellingRule := none
    type := none
    typeDefinition := none
    derivedFrom := none
    references := []
    children := [] }

/-- The six category member lists accumulated by the
`organizeIntoCategories` iteration. -/
structure Buckets where
  dataTypes : List String
  eventTypes : List String
  interfaceTypes : List String
  objectTypes : List String
  referenceTypes : List String
  variableTypes : List String
  deriving DecidableEq

/-- One step of the `organizeIntoCategories` iteration: push the node's key
into the bucket selected by its node class and, for `ObjectType` nodes, by
the event/interface heuristics, first match winning. -/
def bucketStep (b : Buckets) (n : OpcUaNode) : Buckets :=
  if n.nodeClass = NodeClass.DataType then
    { b with dataTypes := b.dataTypes ++ [n.nodeId] }
  else if n.nodeClass = NodeClass.ReferenceType then
    { b with referenceTypes := b.referenceTypes ++ [n.nodeId] }
  else if n.nodeClass = NodeClass.VariableType then
    { b with variableTypes := b.variableTypes ++ [n.nodeId] }
  else if n.nodeClass = NodeClass.ObjectType then
    if jsIncludes (toLowerStr n.browseName) "event" || hasEventTypeReference n then
      { b with eventTypes := b.eventTypes ++ [n.nodeId] }
    else if jsIncludes (toLowerStr n.browseName) "interface" || hasInterfaceReference n then
      { b with interfaceTypes := b.interfaceTypes ++ [n.nodeId] }
    else
      { b with objectTypes := b.objectTypes ++ [n.nodeId] }
  else b

/-- The buckets obtained by iterating the node map's values in insertion
order. -/
def bucketsOf (nodes : JMap OpcUaNode) : Buckets :=
  (nodes.map (·.2)).foldl bucketStep ⟨[], [], [], [], [], []⟩

/-- `organizeIntoCategories`: the six synthetic categories with their member
keys, kept only when nonempty, in the source's fixed push order. -/
def organizeIntoCategories (nodes : JMap OpcUaNode) : List OpcUaNode :=
  let b := bucketsOf nodes
  (if b.dataTypes ≠ [] then
    [{ createCategoryNode "DataTypes" .DataType with children := b.dataTypes }] else []) ++
  (if b.eventTypes ≠ [] then
    [{ createCategoryNode "EventTypes" .ObjectType with children := b.eventTypes }] else []) ++
  (if b.interfaceTypes ≠ [] then
    [{ createCategoryNode "InterfaceTypes" .ObjectType with children := b.interfaceTypes }] else []) ++
  (if b.objectTypes ≠ [] then
    [{ createCategoryNode "ObjectTypes" .ObjectType with children := b.objectTypes }] else []) ++
  (if b.referenceTypes ≠ [] then
    [{ createCategoryNode "ReferenceTypes" .ReferenceType with children := b.referenceTypes }] else []) ++
  (if b.variableTypes ≠ [] then
    [{ createCategoryNode "VariableTypes" .VariableType with children := b.variableTypes }] else [])

/-- The default namespace URI of `processNodeset`. -/
def defaultNamespaceUri : String := "http://opcfoundation.org/UA/"

/-- The namespace URI extraction of `processNodeset`: the text of the first
`Uri` under the first `NamespaceUris`, when truthy. -/
def extractMainNamespaceUri (uaNodeSet : XNode) : String :=
  match querySelector "NamespaceUris" uaNodeSet with
  | some namespaceUrisElement =>
      match querySelector "Uri" namespaceUrisElement with
      | some uriElement =>
          if textContent uriElement = "" then defaultNamespaceUri else textContent uriElement
      | none => defaultNamespaceUri
  | none => defaultNamespaceUri

/-- The fatal-error message for a document without a `UANodeSet` element. -/
def invalidNodesetMsg : String := "Invalid nodeset format: UANodeSet element not found"

/-- `processNodeset`: fail when no `UANodeSet` element exists anywhere in the
document; otherwise extract the namespace URI, fold the main document's
aliases into the symbol table, build the node map, the hierarchy and the
category roots, and assemble the result.  The updated symbol table (the
source's mutated instance fields) is returned alongside the nodeset. -/
def processNodeset (st : ParserState) (xmlDoc : XNode) (fileName : String) :
    Except String (ParserState × OpcUaNodeset) :=
  match querySelector "UANodeSet" xmlDoc with
  | none => .error invalidNodesetMsg
  | some uaNodeSet =>
      let namespaceUri := extractMainNamespaceUri uaNodeSet
      let st := parseAliases st uaNodeSet
      let nodes := extractNodes st (taggedNodeElements uaNodeSet)
      let nodes := buildHierarchy nodes
      let rootNodes := organizeIntoCategories nodes
      .ok (st, { fileName, namespaceUri, namespaceIndex := 1, nodes, rootNodes })

/-- The per-auxiliary-document step of `parseNodeset`: when the reference
document has a `UANodeSet` element, fold its aliases and node names into the
symbol table; otherwise leave the state unchanged. -/
def auxParse (st : ParserState) (refDoc : XNode) : ParserState :=
  match querySelector "UANodeSet" refDoc with
  | some refNodeSet => parseNodeNames (parseAliases st refNodeSet) refNodeSet
  | none => st

/-- `parseNodeset`: seed the symbol table from the auxiliary reference
documents in order, then fail with a generic XML error when the main document
contains a `parsererror` element, and otherwise run `processNodeset`. -/
def parseNodeset (st : ParserState) (xmlDoc : XNode) (fileName : String)
    (referenceNodesets : List XNode) : Except String (ParserState × OpcUaNodeset) :=
  let st := referenceNodesets.foldl auxParse st
  match querySelector "parsererror" xmlDoc with
  | some parserError => .error ("Failed to parse XML: " ++ textContent parserError)
  | none => processNodeset st xmlDoc fileName

/- ### The file-import service (from `FileImportServiceImpl`). -/

/-- `extractNamespaces`: one entry per `UANodeSet > NamespaceUris > Uri`
element whose trimmed text is truthy, carrying the element's `forEach` index
(which advances for every matched element, including skipped empty ones). -/
def extractNamespaces (xmlDoc : XNode) : List Namespace :=
  (docUaNsUris xmlDoc).enum.foldl
    (fun acc ie =>
      if jsTrim (textContent ie.2) ≠ "" then
        acc ++ [{ index := ie.1, uri := jsTrim (textContent ie.2) }]
      else acc)
    []

/-- The namespace entry produced for one matched `Uri` element paired with
its `forEach` index: present exactly when the trimmed text is truthy. -/
def nsEntry (ie : Nat × XNode) : Option Namespace :=
  if jsTrim (textContent ie.2) = "" then none
  else some { index := ie.1, uri := jsTrim (textContent ie.2) }


/-- The node id under which an element enters the node map: its `NodeId`
attribute when present and truthy, `none` otherwise (the silent-skip case of
`parseNode`). -/
def nodeIdOfElem (e : XNode) : Option String :=
  match getAttribute "NodeId" e with
  | some s => if s = "" then none else some s
  | none => none

/-- The last entry with the given node id in a node list: the survivor of the
last-write-wins `Map.set` policy. -/
def lastKeyed (k : String) : List OpcUaNode → Option OpcUaNode
  | [] => none
  | n :: rest =>
      match lastKeyed k rest with
      | some m => some m
      | none => if n.nodeId = k then some n else none

/- ### Derived branch predicates and concrete inputs used by the claims. -/

/-- Concrete state for the C1 witness: the id is present in both maps. -/
def stC1 : ParserState :=
  ⟨[("ns=0;i=47", "HasComponent")], [("ns=0;i=47", "ComponentOf")]⟩

/-- The branch condition under which `organizeIntoCategories` pushes a node
into the EventTypes bucket. -/
def eventObjTypePred (n : OpcUaNode) : Bool :=
  n.nodeClass == NodeClass.ObjectType &&
    (jsIncludes (toLowerStr n.browseName) "event" || hasEventTypeReference n)

/-- The branch condition under which `organizeIntoCategories` pushes a node
into the InterfaceTypes bucket (the event branch not taken first). -/
def interfaceObjTypePred (n : OpcUaNode) : Bool :=
  n.nodeClass == NodeClass.ObjectType &&
    !(jsIncludes (toLowerStr n.browseName) "event" || hasEventTypeReference n) &&
    (jsIncludes (toLowerStr n.browseName) "interface" || hasInterfaceReference n)

/-- The branch condition under which `organizeIntoCategories` pushes a node
into the default ObjectTypes bucket. -/
def plainObjTypePred (n : OpcUaNode) : Bool :=
  n.nodeClass == NodeClass.ObjectType &&
    !(jsIncludes (toLowerStr n.browseName) "event" || hasEventTypeReference n) &&
    !(jsIncludes (toLowerStr n.browseName) "interface" || hasInterfaceReference n)

/-- ObjectType node for the C2 counterexample: browse name without "event",
and a single forward (not backward) HasSubtype reference to a target
containing "EventType". -/
def nodeC2 : OpcUaNode :=
  { nodeId := "ns=1;i=100"
    browseName := "Machine"
    displayName := "Machine"
    nodeClass := .ObjectType
    description := none
    dataType := none
    valueRank := none
    modellingRule := none
    type := none
    typeDefinition := none
    derivedFrom := none
    references := [{ referenceType := "HasSubtype", isForward := true,
                     targetNodeId := "MyEventType" }]
    children := [] }

/-- Node A for the C5 witness: a forward HasComponent reference to an
existing node, a backward Organizes reference, a forward HasProperty
reference to a missing node, and a forward reference of another kind. -/
def nodeC5A : OpcUaNode :=
  { nodeId := "a"
    browseName := "A"
    displayName := "A"
    nodeClass := .Object
    description := none
    dataType := none
    valueRank := none
    modellingRule := none
    type := none
    typeDefinition := none
    derivedFrom := none
    references :=
      [{ referenceType := "HasComponent", isForward := true, targetNodeId := "b" },
       { referenceType := "Organizes", isForward := false, targetNodeId := "b" },
       { referenceType := "HasProperty", isForward := true, targetNodeId := "missing" },
       { referenceType := "HasSubtype", isForward := true, targetNodeId := "b" }]
    children := [] }

/-- Node B for the C5 witness. -/
def nodeC5B : OpcUaNode :=
  { nodeC5A with nodeId := "b", browseName := "B", displayName := "B", references := [] }

/-- The node map for the C5 witness. -/
def nodesC5 : JMap OpcUaNode := [("a", nodeC5A), ("b", nodeC5B)]

/-- The six category identities in the fixed output order. -/
def categoryIds : List (String × String) :=
  [("Category_DataTypes", "DataTypes"), ("Category_EventTypes", "EventTypes"),
   ("Category_InterfaceTypes", "InterfaceTypes"), ("Category_ObjectTypes", "ObjectTypes"),
   ("Category_ReferenceTypes", "ReferenceTypes"), ("Category_VariableTypes", "VariableTypes")]

/-- DataType-class node for the C8 witness. -/
def nodeC8 : OpcUaNode :=
  { nodeC5B with
      nodeId := "dt"
      browseName := "Int32"
      displayName := "Int32"
      nodeClass := .DataType }

/-- Main document for the C3 scenarios: one UAObject with NodeId and
BrowseName attributes. -/
def uaC3Main : XNode :=
  .elem "UANodeSet" [] [.elem "UAObject" [("NodeId", "ns=1;i=10"), ("BrowseName", "MainObj")] []]

/-- The C3 main document (wrapper plus root). -/
def docC3Main : XNode := .elem "#document" [] [uaC3Main]

/-- Auxiliary document for the C3 witness: one UAVariable with NodeId and
BrowseName attributes. -/
def docC3Aux : XNode :=
  .elem "#document" [] [.elem "UANodeSet" [] [
    .elem "UAVariable" [("NodeId", "ns=0;i=63"), ("BrowseName", "BaseDataVariableType")] []]]

/-- The node extracted from the C3 main document. -/
def nodeC3 : OpcUaNode :=
  { nodeId := "ns=1;i=10", browseName := "MainObj", displayName := "",
    nodeClass := .Object, description := some "", dataType := none, valueRank := none,
    modellingRule := none, type := none, typeDefinition := none, derivedFrom := none,
    references := [], children := [] }

/-- The symbol-table state after the C3 witness parse. -/
def stC3 : ParserState := ⟨[], [("ns=0;i=63", "BaseDataVariableType")]⟩

/-- The parse result of the C3 witness parse. -/
def nsC3 : OpcUaNodeset :=
  { fileName := "m.xml", namespaceUri := defaultNamespaceUri, namespaceIndex := 1,
    nodes := [("ns=1;i=10", nodeC3)], rootNodes := [] }

/-- First document of the C4 counterexample: it only declares the alias
`Foo` for the raw id `i=24`. -/
def docC4A : XNode :=
  .elem "#document" [] [.elem "UANodeSet" [] [
    .elem "Aliases" [] [.elem "Alias" [("Alias", "Foo")] [.text "i=24"]]]]

/-- Second document of the C4 counterexample: a UAVariable whose DataType
attribute is the raw id `i=24`. -/
def docC4B : XNode :=
  .elem "#document" [] [.elem "UANodeSet" [] [
    .elem "UAVariable" [("NodeId", "ns=1;i=1"), ("DataType", "i=24")] []]]

/-- The symbol-table state left behind by parsing the first C4 document. -/
def stC4 : ParserState := ⟨[("i=24", "Foo")], []⟩

/-- The node of the second C4 document as parsed on the stale state: its
data type resolves through the leaked alias. -/
def nodeC4B : OpcUaNode :=
  { nodeId := "ns=1;i=1", browseName := "", displayName := "", nodeClass := .Variable,
    description := some "", dataType := some "Foo", valueRank := none, modellingRule := none,
    type := none, typeDefinition := none, derivedFrom := none, references := [],
    children := [] }

/-- The parse result of the second C4 document on the stale state. -/
def nsC4B : OpcUaNodeset :=
  { fileName := "b.xml", namespaceUri := defaultNamespaceUri, namespaceIndex := 1,
    nodes := [("ns=1;i=1", nodeC4B)], rootNodes := [] }

/-- UANodeSet element for the C6 witness: two recognized elements with
distinct truthy NodeIds and one recognized element with no NodeId at all. -/
def uaC6 : XNode :=
  .elem "UANodeSet" [] [
    .elem "UAObject" [("NodeId", "ns=1;i=1")] [],
    .elem "UAVariable" [("NodeId", "ns=1;i=2")] [],
    .elem "UAMethod" [] []]

/-- The C6 witness document. -/
def docC6 : XNode := .elem "#document" [] [uaC6]

/-- Recognized element with an empty (falsy) NodeId attribute for the C6
counterexample. -/
def elemC6E : XNode := .elem "UAObject" [("NodeId", "")] []

/-- The C6 counterexample document: its only recognized element carries a
NodeId attribute whose value is the empty string. -/
def docC6E : XNode := .elem "#document" [] [.elem "UANodeSet" [] [elemC6E]]

/-- UANodeSet element for the C10 witness: a UAVariable appears first in
document order and a UAObject second, both with the same NodeId, so the
per-tag iteration (all UAObject elements first, then all UAVariable
elements) processes the UAObject first and the UAVariable last. -/
def uaC10 : XNode :=
  .elem "UANodeSet" [] [
    .elem "UAVariable" [("NodeId", "x"), ("BrowseName", "Var")] [],
    .elem "UAObject" [("NodeId", "x"), ("BrowseName", "Obj")] []]

/-- The C10 witness document. -/
def docC10 : XNode := .elem "#document" [] [uaC10]

/-- The surviving node of the C10 witness: the UAVariable, processed last
under the per-tag order although it comes first in document order. -/
def nodeC10 : OpcUaNode :=
  { nodeId := "x", browseName := "Var", displayName := "", nodeClass := .Variable,
    description := some "", dataType := none, valueRank := none, modellingRule := none,
    type := none, typeDefinition := none, derivedFrom := none, references := [],
    children := [] }

/-- The parsererror element of the C7 witness document (browsers embed such
an element in the returned document when the text is not well-formed). -/
def peC7 : XNode := .elem "parsererror" [] [.text "boom"]

/-- C7 witness document standing for ill-formed XML input. -/
def docC7bad : XNode := .elem "#document" [] [peC7]

/-- C7 witness document that is well-formed but has no UANodeSet element. -/
def docC7miss : XNode := .elem "#document" [] [.elem "Other" [] []]

/-- C7 counterexample document: well-formed, its root element is Wrapper --
not UANodeSet -- but a UANodeSet element exists deeper in the tree. -/
def docC7nested : XNode :=
  .elem "#document" [] [.elem "Wrapper" [] [.elem "UANodeSet" [] []]]

/-- C9 counterexample document: the first Uri element has empty text, the
second carries a URI. -/
def docC9 : XNode :=
  .elem "#document" [] [.elem "UANodeSet" [] [.elem "NamespaceUris" [] [
    .elem "Uri" [] [], .elem "Uri" [] [.text "http://example.com/UA"]]]]

end OpcUaModeler

namespace OpcUaModeler

/- ### Basic lemmas about the JavaScript-Map model. -/

theorem jget_cons {α : Type} (p : String × α) (m : JMap α) (k : String) :
    jget (p :: m) k = if p.1 = k then some p.2 else jget m k := by
  by_cases h : p.1 = k
  · simp [jget, List.find?_cons_of_pos, h]
  · simp only [jget]
    rw [List.find?_cons_of_neg]
    · simp [h]
    · simp [h]

theorem jget_jset_self {α : Type} (m : JMap α) (k : String) (v : α) :
    jget (jset m k v) k = some v := by
  induction m with
  | nil => simp [jset, jget_cons]
  | cons p rest ih =>
      by_cases h : p.1 = k
      · simp [jset, h, jget_cons]
      · cases p with
        | mk k' v' => simp only [jset] at *; simp [h, jget_cons, ih]

theorem jget_jset_ne {α : Type} (m : JMap α) (k k' : String) (v : α) (h : k' ≠ k) :
    jget (jset m k v) k' = jget m k' := by
  induction m with
  | nil => simp [jset, jget_cons, jget, Ne.symm h]
  | cons p rest ih =>
      cases p with
      | mk a b =>
          by_cases hak : a = k
          · subst hak; simp [jset, jget_cons, Ne.symm h]
          · simp [jset, hak, jget_cons, ih]

theorem jhas_eq_isSome {α : Type} (m : JMap α) (k : String) :
    jhas m k = (jget m k).isSome := by
  simp [jhas, jget]

theorem jhas_cons {α : Type} (p : String × α) (m : JMap α) (k : String) :
    jhas (p :: m) k = if p.1 = k then true else jhas m k := by
  simp [jhas_eq_isSome, jget_cons]
  by_cases h : p.1 = k <;> simp [h]

theorem jhas_jset {α : Type} (m : JMap α) (k k' : String) (v : α) :
    jhas (jset m k v) k' = (k' = k || jhas m k') := by
  by_cases h : k' = k
  · subst h; simp [jhas_eq_isSome, jget_jset_self]
  · simp [jhas_eq_isSome, jget_jset_ne m k k' v h, h]

theorem keys_jset_of_has {α : Type} (m : JMap α) (k : String) (v : α)
    (h : jhas m k = true) : (jset m k v).map (·.1) = m.map (·.1) := by
  induction m with
  | nil => exact Bool.noConfusion h
  | cons p rest ih =>
      cases p with
      | mk a b =>
          rw [jhas_cons] at h
          by_cases hak : a = k
          · subst hak; simp [jset]
          · rw [if_neg hak] at h
            simp [jset, hak, ih h]

theorem keys_jset_of_not_has {α : Type} (m : JMap α) (k : String) (v : α)
    (h : jhas m k = false) : (jset m k v).map (·.1) = m.map (·.1) ++ [k] := by
  induction m with
  | nil => simp [jset]
  | cons p rest ih =>
      cases p with
      | mk a b =>
          rw [jhas_cons] at h
          by_cases hak : a = k
          · rw [if_pos hak] at h; exact Bool.noConfusion h
          · rw [if_neg hak] at h
            simp [jset, hak, ih h]

theorem jhas_iff_mem_keys {α : Type} (m : JMap α) (k : String) :
    jhas m k = true ↔ k ∈ m.map (·.1) := by
  induction m with
  | nil => simp [jhas]
  | cons p rest ih =>
      rw [jhas_cons]
      by_cases h : p.1 = k
      · simp [h]
      · simp [h, ih, Ne.symm h]

theorem nodup_keys_jset {α : Type} (m : JMap α) (k : String) (v : α)
    (h : (m.map (·.1)).Nodup) : ((jset m k v).map (·.1)).Nodup := by
  by_cases hk : jhas m k = true
  · rw [keys_jset_of_has m k v hk]; exact h
  · rw [keys_jset_of_not_has m k v (by simpa using hk)]
    have hnotmem : k ∉ m.map (·.1) := fun hmem => hk ((jhas_iff_mem_keys m k).mpr hmem)
    simp [List.nodup_append, h, hnotmem]

theorem jget_eq_some_of_nodup_mem {α : Type} (m : JMap α) (k : String) (v : α)
    (hnd : (m.map (·.1)).Nodup) (hmem : (k, v) ∈ m) : jget m k = some v := by
  induction m with
  | nil => simp at hmem
  | cons p rest ih =>
      rcases List.mem_cons.mp hmem with h | h
      · subst h; simp [jget_cons]
      · have hk : p.1 ≠ k := by
          simp only [List.map_cons, List.nodup_cons] at hnd
          intro hpk
          exact hnd.1 (hpk ▸ List.mem_map.mpr ⟨(k, v), h, rfl⟩)
        simp only [List.map_cons, List.nodup_cons] at hnd
        simp [jget_cons, hk, ih hnd.2 h]

/- ### Claim C1: symbol resolution priority. -/

/-- C1.  For every nodeId string X, resolveNodeId returns, in strict priority
order: the aliasMap entry when X is a key of aliasMap, else the nodeNameMap
entry when X is a key of nodeNameMap, else the substring of X after its last
colon when that substring is nonempty, else X itself unchanged; in particular
for X present in both maps the alias entry wins.  The hypotheses record that
neither map stores the empty string as a key, which holds for every map the
parser builds (`parseAliases` and `parseNodeNames` skip falsy keys). -/
theorem resolveNodeId_priority (st : ParserState) (X : String)
    (ha : jget st.aliasMap "" = none) (hn : jget st.nodeNameMap "" = none) :
    (∀ a, jget st.aliasMap X = some a → resolveNodeId st X = a) ∧
    (jget st.aliasMap X = none → ∀ n, jget st.nodeNameMap X = some n →
      resolveNodeId st X = n) ∧
    (jget st.aliasMap X = none → jget st.nodeNameMap X = none → lastColonPart X ≠ "" →
      resolveNodeId st X = lastColonPart X) ∧
    (jget st.aliasMap X = none → jget st.nodeNameMap X = none → lastColonPart X = "" →
      resolveNodeId st X = X) ∧
    (∀ a, jget st.aliasMap X = some a → jhas st.nodeNameMap X = true →
      resolveNodeId st X = a) := by
  by_cases hX : X = ""
  · subst hX
    refine ⟨?_, ?_, ?_, ?_, ?_⟩
    · intro a hA; rw [ha] at hA; exact absurd hA (by simp)
    · intro _ n hN; rw [hn] at hN; exact absurd hN (by simp)
    · intro _ _ hc; exact absurd (by decide : lastColonPart "" = "") hc
    · intro _ _ _; rfl
    · intro a hA _; rw [ha] at hA; exact absurd hA (by simp)
  · refine ⟨?_, ?_, ?_, ?_, ?_⟩
    · intro a hA; simp [resolveNodeId, hX, hA]
    · intro hA n hN; simp [resolveNodeId, hX, hA, hN]
    · intro hA hN hc; simp [resolveNodeId, hX, hA, hN, hc]
    · intro hA hN hc; simp [resolveNodeId, hX, hA, hN, hc]
    · intro a hA _; simp [resolveNodeId, hX, hA]


/-- Witness for C1: on a state holding `ns=0;i=47` in both maps, resolution
returns the alias-table entry, never the discovered name. -/
theorem resolveNodeId_priority_witness :
    jget stC1.aliasMap "" = none ∧ jget stC1.nodeNameMap "" = none ∧
    jhas stC1.nodeNameMap "ns=0;i=47" = true ∧
    resolveNodeId stC1 "ns=0;i=47" = "HasComponent" :=
  ⟨rfl, rfl, rfl,
    (resolveNodeId_priority stC1 "ns=0;i=47" rfl rfl).2.2.2.2 "HasComponent" rfl rfl⟩

/- ### Claim C2: the EventTypes bucketing heuristic. -/

theorem foldl_bucketStep_eq (l : List OpcUaNode) (b : Buckets) :
    l.foldl bucketStep b =
      ⟨b.dataTypes ++ (l.filter (fun n => n.nodeClass == NodeClass.DataType)).map (·.nodeId),
       b.eventTypes ++ (l.filter eventObjTypePred).map (·.nodeId),
       b.interfaceTypes ++ (l.filter interfaceObjTypePred).map (·.nodeId),
       b.objectTypes ++ (l.filter plainObjTypePred).map (·.nodeId),
       b.referenceTypes ++ (l.filter (fun n => n.nodeClass == NodeClass.ReferenceType)).map (·.nodeId),
       b.variableTypes ++ (l.filter (fun n => n.nodeClass == NodeClass.VariableType)).map (·.nodeId)⟩ := by
  induction l generalizing b with
  | nil => simp
  | cons n l ih =>
      rw [List.foldl_cons, ih]
      by_cases h1 : n.nodeClass = NodeClass.DataType
      · simp [bucketStep, h1, eventObjTypePred, interfaceObjTypePred, plainObjTypePred,
          List.filter_cons]
      · by_cases h2 : n.nodeClass = NodeClass.ReferenceType
        · simp [bucketStep, h1, h2, eventObjTypePred, interfaceObjTypePred, plainObjTypePred,
            List.filter_cons]
        · by_cases h3 : n.nodeClass = NodeClass.VariableType
          · simp [bucketStep, h1, h2, h3, eventObjTypePred, interfaceObjTypePred,
              plainObjTypePred, List.filter_cons]
          · by_cases h4 : n.nodeClass = NodeClass.ObjectType
            · by_cases hev :
                (jsIncludes (toLowerStr n.browseName) "event" || hasEventTypeReference n) = true
              · simp [bucketStep, h1, h2, h3, h4, hev, eventObjTypePred, interfaceObjTypePred,
                  plainObjTypePred, List.filter_cons]
              · by_cases hif :
                  (jsIncludes (toLowerStr n.browseName) "interface" ||
                    hasInterfaceReference n) = true
                · simp [bucketStep, h1, h2, h3, h4, hev, hif, eventObjTypePred,
                    interfaceObjTypePred, plainObjTypePred, List.filter_cons]
                · simp [bucketStep, h1, h2, h3, h4, hev, hif, eventObjTypePred,
                    interfaceObjTypePred, plainObjTypePred, List.filter_cons]
            · simp [bucketStep, h1, h2, h3, h4, eventObjTypePred, interfaceObjTypePred,
                plainObjTypePred, List.filter_cons]

/-- C2 (amended).  An ObjectType-class node is placed in the EventTypes
bucket if and only if its lower-cased browse name contains the substring
"event" OR it carries a HasSubtype reference -- in either direction, forward
or backward -- whose target nodeId contains the substring "EventType"; the
buckets are evaluated top to bottom (EventTypes, then InterfaceTypes, then
ObjectTypes) and each node goes to exactly one bucket, first match winning;
the EventTypes category in the root output carries exactly the EventTypes
bucket when it is nonempty and is omitted otherwise. -/
theorem eventTypes_membership (nodes : JMap OpcUaNode) :
    (bucketsOf nodes).eventTypes =
      ((nodes.map (·.2)).filter eventObjTypePred).map (·.nodeId) ∧
    (bucketsOf nodes).interfaceTypes =
      ((nodes.map (·.2)).filter interfaceObjTypePred).map (·.nodeId) ∧
    (bucketsOf nodes).objectTypes =
      ((nodes.map (·.2)).filter plainObjTypePred).map (·.nodeId) ∧
    (organizeIntoCategories nodes).filter (fun c => c.nodeId == "Category_EventTypes") =
      (if (bucketsOf nodes).eventTypes = [] then [] else
        [{ createCategoryNode "EventTypes" .ObjectType with
            children := (bucketsOf nodes).eventTypes }]) := by
  refine ⟨?_, ?_, ?_, ?_⟩
  · rw [bucketsOf, foldl_bucketStep_eq]; simp
  · rw [bucketsOf, foldl_bucketStep_eq]; simp
  · rw [bucketsOf, foldl_bucketStep_eq]; simp
  · rw [organizeIntoCategories]
    simp only [List.filter_append,
      apply_ite (List.filter (fun c : OpcUaNode => c.nodeId == "Category_EventTypes"))]
    simp [createCategoryNode, List.filter_cons]


/-- C2 (counterexample).  A node whose lower-cased browse name does not
contain "event" and all of whose references are forward is still placed in
the EventTypes category: the source's hasEventTypeReference ignores the
reference direction, so the claim's "backward HasSubtype reference
(isForward == false)" clause does not match the code. -/
theorem eventTypes_counterexample :
    (organizeIntoCategories [("ns=1;i=100", nodeC2)]).map (fun c => (c.nodeId, c.children)) =
      [("Category_EventTypes", ["ns=1;i=100"])] ∧
    jsIncludes (toLowerStr nodeC2.browseName) "event" = false ∧
    nodeC2.references.all (fun r => r.isForward) = true :=
  ⟨rfl, rfl, rfl⟩

/- ### Claim C5: the hierarchy builder. -/

/-- C5.  For nodes A and B of the node map, B's key is appended to A's
children exactly when A's reference list holds a reference whose type is
HasComponent, Organizes or HasProperty, whose direction is forward, and whose
target is B's key in the map; the children appear in the order of A's
reference list (first conjunct: the updated entry with exactly the filtered
targets, in order, is the one stored for A), children are recorded by key
into the shared node map (the by-relation representation), and backward
references and other reference kinds contribute nothing.  The hypothesis
`A.children = []` records that extraction always creates nodes with empty
children, which `parseNode` guarantees. -/
theorem buildHierarchy_children (nodes : JMap OpcUaNode) (k : String) (A : OpcUaNode)
    (hmem : (k, A) ∈ nodes) (hch : A.children = []) :
    (k, { A with children := ((A.references.filter (fun r =>
        (r.referenceType == "HasComponent" || r.referenceType == "Organizes" ||
         r.referenceType == "HasProperty") && r.isForward &&
           jhas nodes r.targetNodeId)).map (·.targetNodeId)) })
      ∈ buildHierarchy nodes ∧
    (∀ Bk : String,
      Bk ∈ hierChildren nodes A ↔
        ∃ r ∈ A.references,
          (r.referenceType = "HasComponent" ∨ r.referenceType = "Organizes" ∨
           r.referenceType = "HasProperty") ∧ r.isForward = true ∧ r.targetNodeId = Bk ∧
          jhas nodes Bk = true) := by
  constructor
  · have hmap : (k, { A with children := A.children ++ hierChildren nodes A }) ∈
        buildHierarchy nodes :=
      List.mem_map.mpr ⟨(k, A), hmem, rfl⟩
    rw [hch] at hmap
    simpa [hierChildren] using hmap
  · intro Bk
    simp only [hierChildren, List.mem_map, List.mem_filter]
    constructor
    · rintro ⟨r, ⟨hrmem, hcond⟩, rfl⟩
      simp only [Bool.and_eq_true, Bool.or_eq_true, beq_iff_eq] at hcond
      exact ⟨r, hrmem, or_assoc.mp hcond.1.1, hcond.1.2, rfl, hcond.2⟩
    · rintro ⟨r, hrmem, htype, hfwd, rfl, hhas⟩
      refine ⟨r, ⟨hrmem, ?_⟩, rfl⟩
      simp only [Bool.and_eq_true, Bool.or_eq_true, beq_iff_eq]
      exact ⟨⟨or_assoc.mpr htype, hfwd⟩, hhas⟩




/-- Witness for C5: only the forward HasComponent reference to the existing
node b produces a child edge. -/
theorem buildHierarchy_children_witness :
    ("a", nodeC5A) ∈ nodesC5 ∧ nodeC5A.children = [] ∧
    ("a", { nodeC5A with children := ["b"] }) ∈ buildHierarchy nodesC5 :=
  ⟨by decide, rfl,
    (buildHierarchy_children nodesC5 "a" nodeC5A (by decide) rfl).1⟩

/- ### Helper lemmas about processNodeset. -/

theorem processNodeset_eq_ok (st : ParserState) (xmlDoc : XNode) (fileName : String)
    (ua : XNode) (h : querySelector "UANodeSet" xmlDoc = some ua) :
    processNodeset st xmlDoc fileName = .ok (parseAliases st ua,
      { fileName
        namespaceUri := extractMainNamespaceUri ua
        namespaceIndex := 1
        nodes := buildHierarchy (extractNodes (parseAliases st ua) (taggedNodeElements ua))
        rootNodes := organizeIntoCategories
          (buildHierarchy (extractNodes (parseAliases st ua) (taggedNodeElements ua))) }) := by
  simp only [processNodeset, h]

theorem processNodeset_eq_error (st : ParserState) (xmlDoc : XNode) (fileName : String)
    (h : querySelector "UANodeSet" xmlDoc = none) :
    processNodeset st xmlDoc fileName = .error invalidNodesetMsg := by
  simp only [processNodeset, h]

/- ### Claim C8: the synthetic root category list. -/

theorem mem_ite_singleton {α : Type} (x a : α) (c : Prop) [Decidable c] :
    x ∈ (if c then [a] else []) ↔ c ∧ x = a := by
  split_ifs with h <;> simp [h]

theorem ite_singleton_sublist {α : Type} (c : Prop) [Decidable c] (a : α) :
    List.Sublist (if c then [a] else []) [a] := by
  split_ifs <;> simp


theorem mem_organize_iff (nodes : JMap OpcUaNode) (c : OpcUaNode) :
    c ∈ organizeIntoCategories nodes ↔
      ((bucketsOf nodes).dataTypes ≠ [] ∧ c = { createCategoryNode "DataTypes" .DataType with
          children := (bucketsOf nodes).dataTypes }) ∨
      ((bucketsOf nodes).eventTypes ≠ [] ∧ c = { createCategoryNode "EventTypes" .ObjectType with
          children := (bucketsOf nodes).eventTypes }) ∨
      ((bucketsOf nodes).interfaceTypes ≠ [] ∧
        c = { createCategoryNode "InterfaceTypes" .ObjectType with
          children := (bucketsOf nodes).interfaceTypes }) ∨
      ((bucketsOf nodes).objectTypes ≠ [] ∧ c = { createCategoryNode "ObjectTypes" .ObjectType with
          children := (bucketsOf nodes).objectTypes }) ∨
      ((bucketsOf nodes).referenceTypes ≠ [] ∧
        c = { createCategoryNode "ReferenceTypes" .ReferenceType with
          children := (bucketsOf nodes).referenceTypes }) ∨
      ((bucketsOf nodes).variableTypes ≠ [] ∧
        c = { createCategoryNode "VariableTypes" .VariableType with
          children := (bucketsOf nodes).variableTypes }) := by
  rw [organizeIntoCategories]
  simp only [List.mem_append, mem_ite_singleton, or_assoc]

/-- C8.  The root list of the parse result is exactly the output of the
Categorizer; every root entry is one of the six synthetic categories and is
nonempty; every category member key names a node of the map whose class is
one of the four type classes (so non-type nodes appear under no category);
every type-class node of the map appears under some output category (so a
category that received a member is present); and the surviving categories
appear in the fixed order DataTypes, EventTypes, InterfaceTypes, ObjectTypes,
ReferenceTypes, VariableTypes. -/
theorem organizeIntoCategories_root_list (nodes : JMap OpcUaNode) :
    (∀ st doc fn st2 ns, processNodeset st doc fn = Except.ok (st2, ns) →
      ns.rootNodes = organizeIntoCategories ns.nodes) ∧
    (∀ c ∈ organizeIntoCategories nodes,
      (c.nodeId, c.browseName) ∈ categoryIds ∧ c.children ≠ []) ∧
    (∀ c ∈ organizeIntoCategories nodes, ∀ k ∈ c.children,
      ∃ n ∈ nodes.map (·.2), n.nodeId = k ∧
        (n.nodeClass = NodeClass.DataType ∨ n.nodeClass = NodeClass.ReferenceType ∨
         n.nodeClass = NodeClass.VariableType ∨ n.nodeClass = NodeClass.ObjectType)) ∧
    (∀ p ∈ nodes, (p.2.nodeClass = NodeClass.DataType ∨
        p.2.nodeClass = NodeClass.ReferenceType ∨ p.2.nodeClass = NodeClass.VariableType ∨
        p.2.nodeClass = NodeClass.ObjectType) →
      ∃ c ∈ organizeIntoCategories nodes, p.2.nodeId ∈ c.children) ∧
    List.Sublist ((organizeIntoCategories nodes).map (·.browseName))
      ["DataTypes", "EventTypes", "InterfaceTypes", "ObjectTypes",
       "ReferenceTypes", "VariableTypes"] := by
  have hbuckets := foldl_bucketStep_eq (nodes.map (·.2)) ⟨[], [], [], [], [], []⟩
  refine ⟨?_, ?_, ?_, ?_, ?_⟩
  · intro st doc fn st2 ns hok
    cases hua : querySelector "UANodeSet" doc with
    | none => rw [processNodeset_eq_error st doc fn hua] at hok; exact Except.noConfusion hok
    | some ua =>
        rw [processNodeset_eq_ok st doc fn ua hua] at hok
        injection hok with hok
        injection hok with h1 h2
        subst h2; rfl
  · intro c hc
    rcases (mem_organize_iff nodes c).mp hc with
      ⟨h, rfl⟩ | ⟨h, rfl⟩ | ⟨h, rfl⟩ | ⟨h, rfl⟩ | ⟨h, rfl⟩ | ⟨h, rfl⟩ <;>
      exact ⟨by simp [createCategoryNode, categoryIds], h⟩
  · intro c hc k hk
    rcases (mem_organize_iff nodes c).mp hc with
      ⟨h, rfl⟩ | ⟨h, rfl⟩ | ⟨h, rfl⟩ | ⟨h, rfl⟩ | ⟨h, rfl⟩ | ⟨h, rfl⟩ <;>
      simp only [bucketsOf, hbuckets, List.nil_append] at hk <;>
      rcases List.mem_map.mp hk with ⟨n, hn, rfl⟩ <;>
      rcases List.mem_filter.mp hn with ⟨hnv, hnp⟩ <;>
      refine ⟨n, hnv, rfl, ?_⟩
    · simp only [beq_iff_eq] at hnp; exact Or.inl hnp
    · simp only [eventObjTypePred, Bool.and_eq_true, beq_iff_eq] at hnp
      exact Or.inr (Or.inr (Or.inr hnp.1))
    · simp only [interfaceObjTypePred, Bool.and_eq_true, beq_iff_eq] at hnp
      exact Or.inr (Or.inr (Or.inr hnp.1.1))
    · simp only [plainObjTypePred, Bool.and_eq_true, beq_iff_eq] at hnp
      exact Or.inr (Or.inr (Or.inr hnp.1.1))
    · simp only [beq_iff_eq] at hnp; exact Or.inr (Or.inl hnp)
    · simp only [beq_iff_eq] at hnp; exact Or.inr (Or.inr (Or.inl hnp))
  · intro p hp hcls
    have hval : p.2 ∈ nodes.map (·.2) := List.mem_map.mpr ⟨p, hp, rfl⟩
    rcases hcls with hcl | hcl | hcl | hcl
    · have hmem : p.2.nodeId ∈ (bucketsOf nodes).dataTypes := by
        simp only [bucketsOf, hbuckets, List.nil_append]
        exact List.mem_map.mpr ⟨p.2, List.mem_filter.mpr ⟨hval, by simp [hcl]⟩, rfl⟩
      exact ⟨_, (mem_organize_iff nodes _).mpr
        (Or.inl ⟨List.ne_nil_of_mem hmem, rfl⟩), hmem⟩
    · have hmem : p.2.nodeId ∈ (bucketsOf nodes).referenceTypes := by
        simp only [bucketsOf, hbuckets, List.nil_append]
        exact List.mem_map.mpr ⟨p.2, List.mem_filter.mpr ⟨hval, by simp [hcl]⟩, rfl⟩
      exact ⟨_, (mem_organize_iff nodes _).mpr
        (Or.inr (Or.inr (Or.inr (Or.inr (Or.inl ⟨List.ne_nil_of_mem hmem, rfl⟩))))), hmem⟩
    · have hmem : p.2.nodeId ∈ (bucketsOf nodes).variableTypes := by
        simp only [bucketsOf, hbuckets, List.nil_append]
        exact List.mem_map.mpr ⟨p.2, List.mem_filter.mpr ⟨hval, by simp [hcl]⟩, rfl⟩
      exact ⟨_, (mem_organize_iff nodes _).mpr
        (Or.inr (Or.inr (Or.inr (Or.inr (Or.inr ⟨List.ne_nil_of_mem hmem, rfl⟩))))), hmem⟩
    · by_cases hev :
        (jsIncludes (toLowerStr p.2.browseName) "event" || hasEventTypeReference p.2) = true
      · have hmem : p.2.nodeId ∈ (bucketsOf nodes).eventTypes := by
          simp only [bucketsOf, hbuckets, List.nil_append]
          exact List.mem_map.mpr
            ⟨p.2, List.mem_filter.mpr ⟨hval, by simp [eventObjTypePred, hcl, hev]⟩, rfl⟩
        exact ⟨_, (mem_organize_iff nodes _).mpr
          (Or.inr (Or.inl ⟨List.ne_nil_of_mem hmem, rfl⟩)), hmem⟩
      · by_cases hif :
          (jsIncludes (toLowerStr p.2.browseName) "interface" || hasInterfaceReference p.2) = true
        · have hmem : p.2.nodeId ∈ (bucketsOf nodes).interfaceTypes := by
            simp only [bucketsOf, hbuckets, List.nil_append]
            exact List.mem_map.mpr
              ⟨p.2, List.mem_filter.mpr
                ⟨hval, by simp [interfaceObjTypePred, hcl, hev, hif]⟩, rfl⟩
          exact ⟨_, (mem_organize_iff nodes _).mpr
            (Or.inr (Or.inr (Or.inl ⟨List.ne_nil_of_mem hmem, rfl⟩))), hmem⟩
        · have hmem : p.2.nodeId ∈ (bucketsOf nodes).objectTypes := by
            simp only [bucketsOf, hbuckets, List.nil_append]
            exact List.mem_map.mpr
              ⟨p.2, List.mem_filter.mpr
                ⟨hval, by simp [plainObjTypePred, hcl, hev, hif]⟩, rfl⟩
          exact ⟨_, (mem_organize_iff nodes _).mpr
            (Or.inr (Or.inr (Or.inr (Or.inl ⟨List.ne_nil_of_mem hmem, rfl⟩)))), hmem⟩
  · rw [organizeIntoCategories]
    simp only [List.map_append, apply_ite (List.map (fun c : OpcUaNode => c.browseName)),
      List.map_cons, List.map_nil, createCategoryNode]
    exact ((((((ite_singleton_sublist _ _).append (ite_singleton_sublist _ _)).append
      (ite_singleton_sublist _ _)).append (ite_singleton_sublist _ _)).append
        (ite_singleton_sublist _ _)).append (ite_singleton_sublist _ _))

/-- Witness for C8: a one-node DataType map puts its node under an output
category, and a concrete parse's root list is the Categorizer's output. -/
theorem organizeIntoCategories_root_list_witness :
    ("dt", nodeC8) ∈ [("dt", nodeC8)] ∧ nodeC8.nodeClass = NodeClass.DataType ∧
    (∃ c ∈ organizeIntoCategories [("dt", nodeC8)], nodeC8.nodeId ∈ c.children) ∧
    nsC3.rootNodes = organizeIntoCategories nsC3.nodes :=
  ⟨by decide, rfl,
    (organizeIntoCategories_root_list [("dt", nodeC8)]).2.2.2.1 ("dt", nodeC8)
      (by decide) (Or.inl rfl),
    (organizeIntoCategories_root_list []).1 freshState docC3Main "m.xml" freshState nsC3 rfl⟩

/- ### State-evolution lemmas for the symbol table. -/

theorem jhas_jset_mono {α : Type} (m : JMap α) (k k' : String) (v : α)
    (h : jhas m k' = true) : jhas (jset m k v) k' = true := by
  rw [jhas_jset]; simp [h]

theorem parseAliasStep_nodeNameMap (st : ParserState) (al : XNode) :
    (parseAliasStep st al).nodeNameMap = st.nodeNameMap := by
  rw [parseAliasStep]
  split <;> first
    | rfl
    | (split <;> rfl)

theorem foldl_parseAliasStep_nodeNameMap (l : List XNode) (st : ParserState) :
    (l.foldl parseAliasStep st).nodeNameMap = st.nodeNameMap := by
  induction l generalizing st with
  | nil => rfl
  | cons a l ih => rw [List.foldl_cons, ih, parseAliasStep_nodeNameMap]

theorem parseAliases_nodeNameMap (st : ParserState) (ua : XNode) :
    (parseAliases st ua).nodeNameMap = st.nodeNameMap := by
  rw [parseAliases]
  cases querySelector "Aliases" ua with
  | none => rfl
  | some ae => exact foldl_parseAliasStep_nodeNameMap _ st

theorem parseAliasStep_aliasMap_mono (st : ParserState) (al : XNode) (k : String)
    (h : jhas st.aliasMap k = true) : jhas (parseAliasStep st al).aliasMap k = true := by
  rw [parseAliasStep]
  split <;> first
    | exact h
    | (split <;> first
        | exact jhas_jset_mono _ _ _ _ h
        | exact h)

theorem foldl_parseAliasStep_aliasMap_mono (l : List XNode) (st : ParserState) (k : String)
    (h : jhas st.aliasMap k = true) :
    jhas ((l.foldl parseAliasStep st).aliasMap) k = true := by
  induction l generalizing st with
  | nil => exact h
  | cons a l ih => rw [List.foldl_cons]; exact ih _ (parseAliasStep_aliasMap_mono st a k h)

theorem parseAliases_aliasMap_mono (st : ParserState) (ua : XNode) (k : String)
    (h : jhas st.aliasMap k = true) : jhas (parseAliases st ua).aliasMap k = true := by
  rw [parseAliases]
  cases querySelector "Aliases" ua with
  | none => exact h
  | some ae => exact foldl_parseAliasStep_aliasMap_mono _ st k h

theorem parseNodeNameStep_aliasMap (st : ParserState) (te : String × XNode) :
    (parseNodeNameStep st te).aliasMap = st.aliasMap := by
  rw [parseNodeNameStep]
  split <;> first
    | rfl
    | (split <;> rfl)

theorem foldl_parseNodeNameStep_aliasMap (l : List (String × XNode)) (st : ParserState) :
    (l.foldl parseNodeNameStep st).aliasMap = st.aliasMap := by
  induction l generalizing st with
  | nil => rfl
  | cons te l ih => rw [List.foldl_cons, ih, parseNodeNameStep_aliasMap]

theorem parseNodeNames_aliasMap (st : ParserState) (ua : XNode) :
    (parseNodeNames st ua).aliasMap = st.aliasMap := by
  rw [parseNodeNames]; exact foldl_parseNodeNameStep_aliasMap _ st

theorem parseNodeNameStep_nodeNameMap_mono (st : ParserState) (te : String × XNode)
    (k : String) (h : jhas st.nodeNameMap k = true) :
    jhas (parseNodeNameStep st te).nodeNameMap k = true := by
  rw [parseNodeNameStep]
  split <;> first
    | exact h
    | (split <;> first
        | exact jhas_jset_mono _ _ _ _ h
        | exact h)

theorem foldl_parseNodeNameStep_nodeNameMap_mono (l : List (String × XNode))
    (st : ParserState) (k : String) (h : jhas st.nodeNameMap k = true) :
    jhas ((l.foldl parseNodeNameStep st).nodeNameMap) k = true := by
  induction l generalizing st with
  | nil => exact h
  | cons te l ih =>
      rw [List.foldl_cons]; exact ih _ (parseNodeNameStep_nodeNameMap_mono st te k h)

theorem parseNodeNames_nodeNameMap_mono (st : ParserState) (ua : XNode) (k : String)
    (h : jhas st.nodeNameMap k = true) : jhas (parseNodeNames st ua).nodeNameMap k = true := by
  rw [parseNodeNames]; exact foldl_parseNodeNameStep_nodeNameMap_mono _ st k h

theorem auxParse_aliasMap_mono (st : ParserState) (refDoc : XNode) (k : String)
    (h : jhas st.aliasMap k = true) : jhas (auxParse st refDoc).aliasMap k = true := by
  rw [auxParse]
  cases querySelector "UANodeSet" refDoc with
  | none => exact h
  | some ua => rw [parseNodeNames_aliasMap]; exact parseAliases_aliasMap_mono st ua k h

theorem auxParse_nodeNameMap_mono (st : ParserState) (refDoc : XNode) (k : String)
    (h : jhas st.nodeNameMap k = true) : jhas (auxParse st refDoc).nodeNameMap k = true := by
  rw [auxParse]
  cases querySelector "UANodeSet" refDoc with
  | none => exact h
  | some ua =>
      exact parseNodeNames_nodeNameMap_mono _ ua k (by rw [parseAliases_nodeNameMap]; exact h)

theorem foldl_auxParse_aliasMap_mono (refs : List XNode) (st : ParserState) (k : String)
    (h : jhas st.aliasMap k = true) : jhas ((refs.foldl auxParse st).aliasMap) k = true := by
  induction refs generalizing st with
  | nil => exact h
  | cons d refs ih => rw [List.foldl_cons]; exact ih _ (auxParse_aliasMap_mono st d k h)

theorem foldl_auxParse_nodeNameMap_mono (refs : List XNode) (st : ParserState) (k : String)
    (h : jhas st.nodeNameMap k = true) :
    jhas ((refs.foldl auxParse st).nodeNameMap) k = true := by
  induction refs generalizing st with
  | nil => exact h
  | cons d refs ih => rw [List.foldl_cons]; exact ih _ (auxParse_nodeNameMap_mono st d k h)

theorem parseNodeset_eq_processNodeset (st : ParserState) (doc : XNode) (fn : String)
    (refs : List XNode) (h : querySelector "parsererror" doc = none) :
    parseNodeset st doc fn refs = processNodeset (refs.foldl auxParse st) doc fn := by
  simp only [parseNodeset, h]

theorem parseNodeset_eq_error_parse (st : ParserState) (doc : XNode) (fn : String)
    (refs : List XNode) (pe : XNode) (h : querySelector "parsererror" doc = some pe) :
    parseNodeset st doc fn refs = .error ("Failed to parse XML: " ++ textContent pe) := by
  simp only [parseNodeset, h]

/- ### Claim C4: symbol-table state across invocations. -/

/-- C4 (amended).  The symbol table persists across parseNodeset invocations
on the same parser instance: every aliasMap and nodeNameMap key present
before an invocation is still present afterwards (values may be overwritten,
entries are never removed), and a later parse resolves names through these
retained entries, so its result need not equal a freshly constructed
instance's result; per-call equality holds only when each call starts from a
fresh state. -/
theorem parseNodeset_state_persistence (st : ParserState) (doc : XNode) (fn : String)
    (refs : List XNode) (st2 : ParserState) (ns : OpcUaNodeset)
    (hok : parseNodeset st doc fn refs = .ok (st2, ns)) :
    (∀ k, jhas st.aliasMap k = true → jhas st2.aliasMap k = true) ∧
    (∀ k, jhas st.nodeNameMap k = true → jhas st2.nodeNameMap k = true) := by
  cases hpe : querySelector "parsererror" doc with
  | some pe =>
      rw [parseNodeset_eq_error_parse st doc fn refs pe hpe] at hok
      exact Except.noConfusion hok
  | none =>
      rw [parseNodeset_eq_processNodeset st doc fn refs hpe] at hok
      cases hua : querySelector "UANodeSet" doc with
      | none =>
          rw [processNodeset_eq_error _ _ _ hua] at hok
          exact Except.noConfusion hok
      | some ua =>
          rw [processNodeset_eq_ok _ _ _ ua hua] at hok
          injection hok with hok
          injection hok with h1 h2
          constructor
          · intro k hk
            rw [← h1]
            exact parseAliases_aliasMap_mono _ ua k (foldl_auxParse_aliasMap_mono refs st k hk)
          · intro k hk
            rw [← h1, parseAliases_nodeNameMap]
            exact foldl_auxParse_nodeNameMap_mono refs st k hk

/-- Witness for C4 (amended): the alias key left by an earlier parse is still
present after a subsequent parse on the same state. -/
theorem parseNodeset_state_persistence_witness :
    parseNodeset stC4 docC4B "b.xml" [] = .ok (stC4, nsC4B) ∧
    jhas stC4.aliasMap "i=24" = true :=
  ⟨rfl, (parseNodeset_state_persistence stC4 docC4B "b.xml" [] stC4 nsC4B rfl).1 "i=24" rfl⟩

/-- C4 (counterexample).  The last conjuncts run the same invocation
(document docC4B, file name b.xml, no auxiliary documents) on the state left
behind by an earlier unrelated parse and on a fresh instance: the node's
resolved data type is "Foo" (through the leaked alias) in the first case and
"i=24" in the second, so the results differ and the Symbol Table leaks state
across parses. -/
theorem parseNodeset_state_counterexample :
    (parseNodeset freshState docC4A "a.xml" []).toOption.map (fun p => p.1) = some stC4 ∧
    ((parseNodeset stC4 docC4B "b.xml" []).toOption.bind
      (fun p => jget p.2.nodes "ns=1;i=1")).map (·.dataType) = some (some "Foo") ∧
    ((parseNodeset freshState docC4B "b.xml" []).toOption.bind
      (fun p => jget p.2.nodes "ns=1;i=1")).map (·.dataType) = some (some "i=24") :=
  ⟨rfl, rfl, rfl⟩

/- ### Lemmas about node extraction and the node map's keys. -/

theorem parseNode_nodeId (st : ParserState) (e : XNode) (t : String) :
    (parseNode st e t).map (·.nodeId) = nodeIdOfElem e := by
  rw [parseNode, nodeIdOfElem]
  cases getAttribute "NodeId" e with
  | none => rfl
  | some s =>
      by_cases h : s = ""
      · simp [h]
      · simp [h]

theorem jget_mapVal {α β : Type} (f : α → β) (m : JMap α) (k : String) :
    jget (m.map (fun kn => (kn.1, f kn.2))) k = (jget m k).map f := by
  induction m with
  | nil => rfl
  | cons p rest ih =>
      by_cases h : p.1 = k
      · simp [jget_cons, h]
      · simp [jget_cons, h, ih]

theorem jget_buildHierarchy (m : JMap OpcUaNode) (k : String) :
    jget (buildHierarchy m) k =
      (jget m k).map (fun n => { n with children := n.children ++ hierChildren m n }) := by
  rw [buildHierarchy]
  exact jget_mapVal (fun n => { n with children := n.children ++ hierChildren m n }) m k

theorem jhas_buildHierarchy (m : JMap OpcUaNode) (k : String) :
    jhas (buildHierarchy m) k = jhas m k := by
  rw [jhas_eq_isSome, jhas_eq_isSome, jget_buildHierarchy]
  cases jget m k <;> rfl

theorem keys_buildHierarchy (m : JMap OpcUaNode) :
    (buildHierarchy m).map (·.1) = m.map (·.1) := by
  rw [buildHierarchy, List.map_map]; rfl

theorem mem_filterMap_tail {α β : Type} (f : α → Option β) (a : α) (l : List α) (b : β)
    (h : b ∈ l.filterMap f) : b ∈ (a :: l).filterMap f := by
  rw [List.filterMap_cons]
  cases f a with
  | none => exact h
  | some c => exact List.mem_cons_of_mem c h

theorem extractNodes_keys_sub (st : ParserState) (es : List (String × XNode))
    (m : JMap OpcUaNode) (k : String)
    (h : jhas (es.foldl (extractNodeStep st) m) k = true) :
    jhas m k = true ∨ k ∈ es.filterMap (fun te => nodeIdOfElem te.2) := by
  induction es generalizing m with
  | nil => exact Or.inl h
  | cons te es ih =>
      rw [List.foldl_cons] at h
      rcases ih (extractNodeStep st m te) h with h' | h'
      · rw [extractNodeStep] at h'
        cases hp : parseNode st te.2 te.1 with
        | none => rw [hp] at h'; exact Or.inl h'
        | some n =>
            rw [hp] at h'
            rw [jhas_jset] at h'
            by_cases hk : k = n.nodeId
            · right
              have hid : nodeIdOfElem te.2 = some n.nodeId := by
                have hmap := parseNode_nodeId st te.2 te.1
                rw [hp] at hmap
                exact hmap.symm ▸ rfl
              rw [List.filterMap_cons, hid]
              exact hk ▸ List.mem_cons_self _ _
            · simp only [hk, decide_False, Bool.false_or] at h'
              exact Or.inl h'
      · exact Or.inr (mem_filterMap_tail _ te es k h')

/- ### Claim C3: which documents populate the node-name map and the node map. -/

/-- C3 (amended).  After a parseNodeset invocation, the nodeNameMap holds
exactly what the auxiliary-document pass left there -- the main document's
node elements never populate it (processNodeset only folds the main
document's aliases); parseNodeNames records an entry for every recognized
node element with truthy NodeId and BrowseName attributes, which parseNodeset
applies to each auxiliary document; and only the main document's node
elements produce entries in the result's node map, keyed by their raw
NodeId attribute values. -/
theorem nodeNameMap_population (st : ParserState) (doc : XNode) (fn : String)
    (refs : List XNode) (st2 : ParserState) (ns : OpcUaNodeset)
    (hok : parseNodeset st doc fn refs = .ok (st2, ns)) :
    (st2.nodeNameMap = (refs.foldl auxParse st).nodeNameMap) ∧
    (∀ k, jhas ns.nodes k = true →
      ∃ ua, querySelector "UANodeSet" doc = some ua ∧
        k ∈ (taggedNodeElements ua).filterMap (fun te => nodeIdOfElem te.2)) ∧
    (∀ st0 ua te nodeId browseName, te ∈ taggedNodeElements ua →
      getAttribute "NodeId" te.2 = some nodeId → nodeId ≠ "" →
      getAttribute "BrowseName" te.2 = some browseName → browseName ≠ "" →
      jhas (parseNodeNames st0 ua).nodeNameMap nodeId = true) := by
  refine ⟨?_, ?_, ?_⟩
  · cases hpe : querySelector "parsererror" doc with
    | some pe =>
        rw [parseNodeset_eq_error_parse st doc fn refs pe hpe] at hok
        exact Except.noConfusion hok
    | none =>
        rw [parseNodeset_eq_processNodeset st doc fn refs hpe] at hok
        cases hua : querySelector "UANodeSet" doc with
        | none =>
            rw [processNodeset_eq_error _ _ _ hua] at hok
            exact Except.noConfusion hok
        | some ua =>
            rw [processNodeset_eq_ok _ _ _ ua hua] at hok
            injection hok with hok
            injection hok with h1 h2
            rw [← h1, parseAliases_nodeNameMap]
  · intro k hk
    cases hpe : querySelector "parsererror" doc with
    | some pe =>
        rw [parseNodeset_eq_error_parse st doc fn refs pe hpe] at hok
        exact Except.noConfusion hok
    | none =>
        rw [parseNodeset_eq_processNodeset st doc fn refs hpe] at hok
        cases hua : querySelector "UANodeSet" doc with
        | none =>
            rw [processNodeset_eq_error _ _ _ hua] at hok
            exact Except.noConfusion hok
        | some ua =>
            rw [processNodeset_eq_ok _ _ _ ua hua] at hok
            injection hok with hok
            injection hok with h1 h2
            refine ⟨ua, rfl, ?_⟩
            rw [← h2] at hk
            simp only [jhas_buildHierarchy] at hk
            rcases extractNodes_keys_sub _ _ _ k hk with hfalse | hmem
            · exact Bool.noConfusion hfalse
            · exact hmem
  · intro st0 ua te nodeId browseName hte h1 h2 h3 h4
    rw [parseNodeNames]
    have hstep : ∀ st1 : ParserState,
        jhas (parseNodeNameStep st1 te).nodeNameMap nodeId = true := by
      intro st1
      simp only [parseNodeNameStep, h1, h3]
      rw [if_pos (by simp [h2, h4])]
      rw [jhas_jset]
      simp
    generalize taggedNodeElements ua = l at hte
    induction l generalizing st0 with
    | nil => exact absurd hte (List.not_mem_nil te)
    | cons te' l ih =>
        rw [List.foldl_cons]
        rcases List.mem_cons.mp hte with h | h
        · subst h
          exact foldl_parseNodeNameStep_nodeNameMap_mono l _ nodeId (hstep st0)
        · exact ih _ h

/-- Witness for C3 (amended): a parse with one auxiliary document; the final
nodeNameMap is exactly the auxiliary pass's result -- here the auxiliary
UAVariable's entry -- and the main document's UAObject appears in the node
map but not in the nodeNameMap. -/
theorem nodeNameMap_population_witness :
    parseNodeset freshState docC3Main "m.xml" [docC3Aux] = .ok (stC3, nsC3) ∧
    stC3.nodeNameMap = ([docC3Aux].foldl auxParse freshState).nodeNameMap :=
  ⟨rfl, (nodeNameMap_population freshState docC3Main "m.xml" [docC3Aux] stC3 nsC3 rfl).1⟩

/-- C3 (counterexample).  The main document holds a recognized node element
with both NodeId and BrowseName attributes, yet after parseNodeset (with no
auxiliary documents) the nodeNameMap has no entry for it -- refuting the
claim that every supplied document's node elements, the main document's
included, populate nodeNameMap. -/
theorem nodeNameMap_counterexample :
    querySelector "UANodeSet" docC3Main = some uaC3Main ∧
    (taggedNodeElements uaC3Main).map
      (fun te => (getAttribute "NodeId" te.2, getAttribute "BrowseName" te.2)) =
      [(some "ns=1;i=10", some "MainObj")] ∧
    (parseNodeset freshState docC3Main "m.xml" []).toOption.map
      (fun p => jhas p.1.nodeNameMap "ns=1;i=10") = some false :=
  ⟨rfl, rfl, rfl⟩

/- ### Key-uniqueness and last-write-wins lemmas for the node map. -/

theorem jmap_filter_key_nil {α : Type} (m : JMap α) (k : String)
    (h : k ∉ m.map (·.1)) : m.filter (fun p => p.1 == k) = [] := by
  induction m with
  | nil => rfl
  | cons p rest ih =>
      simp only [List.map_cons, List.mem_cons, not_or] at h
      rw [List.filter_cons]
      rw [if_neg (by simp [Ne.symm h.1])]
      exact ih h.2

theorem jmap_filter_key_length {α : Type} (m : JMap α) (k : String)
    (hnd : (m.map (·.1)).Nodup) (hmem : k ∈ m.map (·.1)) :
    (m.filter (fun p => p.1 == k)).length = 1 := by
  induction m with
  | nil => simp at hmem
  | cons p rest ih =>
      simp only [List.map_cons, List.nodup_cons] at hnd
      rcases List.mem_cons.mp hmem with h | h
      · rw [List.filter_cons, if_pos (by simp [h])]
        rw [jmap_filter_key_nil rest k (h ▸ hnd.1)]
        rfl
      · have hpk1 : p.1 ≠ k := fun hpk => hnd.1 (hpk ▸ h)
        rw [List.filter_cons, if_neg (by simp [hpk1])]
        exact ih hnd.2 h

theorem extractNodes_keys_nodup_pres (st : ParserState) (es : List (String × XNode))
    (m : JMap OpcUaNode) (h : (m.map (·.1)).Nodup) :
    ((es.foldl (extractNodeStep st) m).map (·.1)).Nodup := by
  induction es generalizing m with
  | nil => exact h
  | cons te es ih =>
      rw [List.foldl_cons]
      refine ih _ ?_
      rw [extractNodeStep]
      cases parseNode st te.2 te.1 with
      | none => exact h
      | some n => exact nodup_keys_jset m n.nodeId n h

theorem extractNodes_keys_eq (st : ParserState) (es : List (String × XNode))
    (m : JMap OpcUaNode)
    (h : ((m.map (·.1)) ++ es.filterMap (fun te => nodeIdOfElem te.2)).Nodup) :
    (es.foldl (extractNodeStep st) m).map (·.1) =
      m.map (·.1) ++ es.filterMap (fun te => nodeIdOfElem te.2) := by
  induction es generalizing m with
  | nil => simp
  | cons te es ih =>
      rw [List.foldl_cons, List.filterMap_cons]
      have hmap := parseNode_nodeId st te.2 te.1
      cases hid : nodeIdOfElem te.2 with
      | none =>
          have hp : parseNode st te.2 te.1 = none := by
            rw [hid] at hmap
            cases hpn : parseNode st te.2 te.1 with
            | none => rfl
            | some n => rw [hpn] at hmap; exact Option.noConfusion hmap
          rw [extractNodeStep, hp]
          rw [List.filterMap_cons, hid] at h
          exact ih m h
      | some id =>
          cases hpn : parseNode st te.2 te.1 with
          | none => rw [hpn, hid] at hmap; exact Option.noConfusion hmap
          | some n =>
              have hnid : n.nodeId = id := by
                rw [hpn, hid] at hmap
                exact Option.some.inj hmap
              rw [extractNodeStep, hpn]
              rw [List.filterMap_cons, hid] at h
              have hnotmem : id ∉ m.map (·.1) := by
                intro hmem
                rcases List.nodup_append.mp h with ⟨_, _, hdisj⟩
                exact hdisj hmem (List.mem_cons_self _ _)
              have hkeys : (jset m n.nodeId n).map (·.1) = m.map (·.1) ++ [id] := by
                rw [hnid]
                exact keys_jset_of_not_has m id n
                  (by simpa using fun hh => hnotmem ((jhas_iff_mem_keys m id).mp hh))
              have hstep := ih (jset m n.nodeId n) (by
                rw [hkeys, List.append_assoc, List.singleton_append]
                exact h)
              rw [hstep, hkeys, List.append_assoc, List.singleton_append]

theorem extractNodes_jget_last (st : ParserState) (es : List (String × XNode))
    (m : JMap OpcUaNode) (k : String) :
    jget (es.foldl (extractNodeStep st) m) k =
      match lastKeyed k (es.filterMap (fun te => parseNode st te.2 te.1)) with
      | some n => some n
      | none => jget m k := by
  induction es generalizing m with
  | nil => rfl
  | cons te es ih =>
      rw [List.foldl_cons, List.filterMap_cons]
      cases hpn : parseNode st te.2 te.1 with
      | none => rw [extractNodeStep, hpn]; exact ih m
      | some n =>
          rw [extractNodeStep, hpn, ih (jset m n.nodeId n)]
          rw [lastKeyed]
          cases lastKeyed k (es.filterMap (fun te => parseNode st te.2 te.1)) with
          | some n' => rfl
          | none =>
              by_cases hk : n.nodeId = k
              · rw [if_pos hk, hk, jget_jset_self]
              · rw [if_neg hk, jget_jset_ne m n.nodeId k n (Ne.symm hk)]

theorem lastKeyed_ne_none_of_filter (k : String) (l : List OpcUaNode)
    (h : l.filter (fun n => n.nodeId == k) ≠ []) : lastKeyed k l ≠ none := by
  induction l with
  | nil => simp at h
  | cons n l ih =>
      rw [lastKeyed]
      cases hl : lastKeyed k l with
      | some m => simp
      | none =>
          rw [List.filter_cons] at h
          by_cases hk : n.nodeId = k
          · rw [if_pos hk]; simp
          · rw [if_neg (by simp [hk])] at h
            exact absurd hl (ih h)

/- ### Claim C6: silent skip of elements without a truthy NodeId. -/

/-- C6 (amended).  processNodeset never fails once the UANodeSet element is
found: a recognized element whose NodeId attribute is absent or empty is
discarded silently (parseNode returns nothing for it) and appears nowhere in
the node map, while the keys of the result's node map are exactly the truthy
NodeId attribute values of the recognized elements, each present exactly
once, so N recognized elements with distinct nonempty NodeIds yield a node
map of size exactly N.  (The claim as frozen also counts an element whose
NodeId attribute is the empty string as "carrying a NodeId attribute"; the
code's falsy test discards such an element, see the counterexample.) -/
theorem nodeMap_extraction (st : ParserState) (doc : XNode) (fn : String) (ua : XNode)
    (hua : querySelector "UANodeSet" doc = some ua)
    (hnd : ((taggedNodeElements ua).filterMap (fun te => nodeIdOfElem te.2)).Nodup) :
    ∃ st2 ns, processNodeset st doc fn = .ok (st2, ns) ∧
      ns.nodes.map (·.1) = (taggedNodeElements ua).filterMap (fun te => nodeIdOfElem te.2) ∧
      ns.nodes.length =
        ((taggedNodeElements ua).filterMap (fun te => nodeIdOfElem te.2)).length ∧
      (∀ te ∈ taggedNodeElements ua, ∀ id, nodeIdOfElem te.2 = some id →
        (ns.nodes.filter (fun p => p.1 == id)).length = 1) ∧
      (∀ te ∈ taggedNodeElements ua, nodeIdOfElem te.2 = none →
        parseNode (parseAliases st ua) te.2 te.1 = none) := by
  refine ⟨_, _, processNodeset_eq_ok st doc fn ua hua, ?_, ?_, ?_, ?_⟩
  · rw [keys_buildHierarchy, extractNodes]
    simpa using extractNodes_keys_eq (parseAliases st ua) (taggedNodeElements ua) []
      (by simpa using hnd)
  · have hkeys : (buildHierarchy (extractNodes (parseAliases st ua)
        (taggedNodeElements ua))).map (·.1) =
        (taggedNodeElements ua).filterMap (fun te => nodeIdOfElem te.2) := by
      rw [keys_buildHierarchy, extractNodes]
      simpa using extractNodes_keys_eq (parseAliases st ua) (taggedNodeElements ua) []
        (by simpa using hnd)
    have := congrArg List.length hkeys
    simpa using this
  · intro te hte id hid
    have hkeys : (buildHierarchy (extractNodes (parseAliases st ua)
        (taggedNodeElements ua))).map (·.1) =
        (taggedNodeElements ua).filterMap (fun te => nodeIdOfElem te.2) := by
      rw [keys_buildHierarchy, extractNodes]
      simpa using extractNodes_keys_eq (parseAliases st ua) (taggedNodeElements ua) []
        (by simpa using hnd)
    refine jmap_filter_key_length _ id ?_ ?_
    · rw [hkeys]; exact hnd
    · rw [hkeys]; exact List.mem_filterMap.mpr ⟨te, hte, hid⟩
  · intro te hte hid
    have hmap := parseNode_nodeId (parseAliases st ua) te.2 te.1
    rw [hid] at hmap
    cases hpn : parseNode (parseAliases st ua) te.2 te.1 with
    | none => rfl
    | some n => rw [hpn] at hmap; exact Option.noConfusion hmap

/-- Witness for C6 (amended): two recognized elements with distinct truthy
NodeIds and one without a NodeId yield a node map keyed exactly by the two
truthy ids. -/
theorem nodeMap_extraction_witness :
    querySelector "UANodeSet" docC6 = some uaC6 ∧
    ((taggedNodeElements uaC6).filterMap (fun te => nodeIdOfElem te.2)).Nodup ∧
    (∃ st2 ns, processNodeset freshState docC6 "c6.xml" = .ok (st2, ns) ∧
      ns.nodes.map (·.1) =
        (taggedNodeElements uaC6).filterMap (fun te => nodeIdOfElem te.2)) :=
  ⟨rfl, by decide, by
    obtain ⟨st2, ns, hok, hkeys, _⟩ :=
      nodeMap_extraction freshState docC6 "c6.xml" uaC6 rfl (by decide)
    exact ⟨st2, ns, hok, hkeys⟩⟩

/-- C6 (counterexample).  An element that does carry a NodeId attribute --
with the empty string as its value -- is discarded: the node map is empty,
not a one-entry map keyed by that value, because the source tests the
attribute with JavaScript truthiness rather than presence. -/
theorem nodeMap_extraction_counterexample :
    getAttribute "NodeId" elemC6E = some "" ∧
    (processNodeset freshState docC6E "e.xml").toOption.map (fun p => p.2.nodes) =
      some [] :=
  ⟨rfl, rfl⟩

/- ### Claim C10: duplicate NodeIds and the last-write-wins policy. -/

/-- C10.  When two or more recognized elements of the main document parse to
nodes with the same NodeId, processNodeset raises no error; the result's node
map holds exactly one entry for that id, and that entry is the node parsed
from the element processed last under the fixed per-tag iteration order (all
UAObject elements in document order, then UAVariable, and so on), with the
hierarchy children appended afterwards; the earlier duplicate is silently
replaced. -/
theorem duplicate_nodeIds_last_wins (st : ParserState) (doc : XNode) (fn : String)
    (ua : XNode) (k : String) (hua : querySelector "UANodeSet" doc = some ua)
    (hdup : 2 ≤ (((taggedNodeElements ua).filterMap
      (fun te => parseNode (parseAliases st ua) te.2 te.1)).filter
        (fun n => n.nodeId == k)).length) :
    ∃ st2 ns, processNodeset st doc fn = .ok (st2, ns) ∧
      (ns.nodes.filter (fun p => p.1 == k)).length = 1 ∧
      jget ns.nodes k = (lastKeyed k ((taggedNodeElements ua).filterMap
        (fun te => parseNode (parseAliases st ua) te.2 te.1))).map
        (fun n => { n with children := (n.children ++
          hierChildren (extractNodes (parseAliases st ua) (taggedNodeElements ua)) n) }) := by
  have hbase : jget (extractNodes (parseAliases st ua) (taggedNodeElements ua)) k =
      lastKeyed k ((taggedNodeElements ua).filterMap
        (fun te => parseNode (parseAliases st ua) te.2 te.1)) := by
    rw [extractNodes, extractNodes_jget_last]
    cases lastKeyed k ((taggedNodeElements ua).filterMap
        (fun te => parseNode (parseAliases st ua) te.2 te.1)) with
    | some n => rfl
    | none => rfl
  have hlast : lastKeyed k ((taggedNodeElements ua).filterMap
      (fun te => parseNode (parseAliases st ua) te.2 te.1)) ≠ none := by
    refine lastKeyed_ne_none_of_filter k _ (fun hnil => ?_)
    rw [hnil] at hdup
    simp at hdup
  refine ⟨_, _, processNodeset_eq_ok st doc fn ua hua, ?_, ?_⟩
  · have hhas : jhas (buildHierarchy (extractNodes (parseAliases st ua)
        (taggedNodeElements ua))) k = true := by
      rw [jhas_buildHierarchy, jhas_eq_isSome, hbase]
      cases hlk : lastKeyed k ((taggedNodeElements ua).filterMap
          (fun te => parseNode (parseAliases st ua) te.2 te.1)) with
      | some n => rfl
      | none => exact absurd hlk hlast
    refine jmap_filter_key_length _ k ?_ ((jhas_iff_mem_keys _ k).mp hhas)
    rw [keys_buildHierarchy]
    exact extractNodes_keys_nodup_pres (parseAliases st ua) (taggedNodeElements ua) []
      (by simp)
  · rw [jget_buildHierarchy, hbase]

/-- Witness for C10: the same NodeId on a UAVariable (first in document
order) and a UAObject (second); the UAObject pass runs first, so the
UAVariable element is processed last and its node is the single surviving
entry. -/
theorem duplicate_nodeIds_last_wins_witness :
    querySelector "UANodeSet" docC10 = some uaC10 ∧
    2 ≤ (((taggedNodeElements uaC10).filterMap
      (fun te => parseNode (parseAliases freshState uaC10) te.2 te.1)).filter
        (fun n => n.nodeId == "x")).length ∧
    (∃ st2 ns, processNodeset freshState docC10 "dup.xml" = .ok (st2, ns) ∧
      (ns.nodes.filter (fun p => p.1 == "x")).length = 1 ∧
      jget ns.nodes "x" = some nodeC10) :=
  ⟨rfl, by decide, by
    obtain ⟨st2, ns, hok, hcount, hjget⟩ :=
      duplicate_nodeIds_last_wins freshState docC10 "dup.xml" uaC10 "x" rfl (by decide)
    refine ⟨st2, ns, hok, hcount, ?_⟩
    rw [hjget]
    rfl⟩

/- ### Claim C7: the fatal error conditions. -/

theorem failedMsg_ne_invalid (t : String) :
    "Failed to parse XML: " ++ t ≠ invalidNodesetMsg := by
  intro h
  have hdata : ("Failed to parse XML: " ++ t).data = invalidNodesetMsg.data :=
    congrArg String.data h
  rw [show ("Failed to parse XML: " ++ t).data =
    'F' :: ("ailed to parse XML: ".data ++ t.data) from by cases t; rfl] at hdata
  rw [show invalidNodesetMsg.data =
    'I' :: "nvalid nodeset format: UANodeSet element not found".data from rfl] at hdata
  injection hdata with h1 h2
  exact absurd h1 (by decide)

/-- C7 (amended).  parseNodeset fails with the distinct message "Invalid
nodeset format: UANodeSet element not found" exactly when the main document
carries no parsererror marker (well-formed XML under the DOMParser contract)
and contains no UANodeSet element anywhere in the tree (the source looks the
element up with querySelector, so it need not be the root element -- see the
counterexample); it fails with the different, generic XML-parse message when
the document carries a parsererror; and it succeeds exactly otherwise, so no
partial result value is ever produced alongside an error. -/
theorem parseError_conditions (st : ParserState) (doc : XNode) (fn : String)
    (refs : List XNode) :
    (parseNodeset st doc fn refs = .error invalidNodesetMsg ↔
      (querySelector "parsererror" doc = none ∧ querySelector "UANodeSet" doc = none)) ∧
    (∀ pe, querySelector "parsererror" doc = some pe →
      parseNodeset st doc fn refs = .error ("Failed to parse XML: " ++ textContent pe)) ∧
    ((parseNodeset st doc fn refs).isOk = true ↔
      (querySelector "parsererror" doc = none ∧
        (querySelector "UANodeSet" doc).isSome = true)) := by
  refine ⟨?_, ?_, ?_⟩
  · cases hpe : querySelector "parsererror" doc with
    | some pe =>
        rw [parseNodeset_eq_error_parse st doc fn refs pe hpe]
        constructor
        · intro h
          injection h with h
          exact absurd h (failedMsg_ne_invalid (textContent pe))
        · rintro ⟨h1, h2⟩
          exact Option.noConfusion h1
    | none =>
        rw [parseNodeset_eq_processNodeset st doc fn refs hpe]
        cases hua : querySelector "UANodeSet" doc with
        | none =>
            rw [processNodeset_eq_error _ _ _ hua]
            exact ⟨fun _ => ⟨rfl, rfl⟩, fun _ => rfl⟩
        | some ua =>
            rw [processNodeset_eq_ok _ _ _ ua hua]
            constructor
            · intro h; exact Except.noConfusion h
            · rintro ⟨h1, h2⟩; exact Option.noConfusion h2
  · intro pe hpe
    exact parseNodeset_eq_error_parse st doc fn refs pe hpe
  · cases hpe : querySelector "parsererror" doc with
    | some pe =>
        rw [parseNodeset_eq_error_parse st doc fn refs pe hpe]
        constructor
        · intro h; exact Bool.noConfusion h
        · rintro ⟨h1, h2⟩; exact Option.noConfusion h1
    | none =>
        rw [parseNodeset_eq_processNodeset st doc fn refs hpe]
        cases hua : querySelector "UANodeSet" doc with
        | none =>
            rw [processNodeset_eq_error _ _ _ hua]
            constructor
            · intro h; exact Bool.noConfusion h
            · rintro ⟨h1, h2⟩; exact Bool.noConfusion h2
        | some ua =>
            rw [processNodeset_eq_ok _ _ _ ua hua]
            exact ⟨fun _ => ⟨rfl, rfl⟩, fun _ => rfl⟩

/-- Witness for C7 (amended): a parsererror document yields the generic
message; a well-formed document without any UANodeSet element yields the
distinct invalid-nodeset message. -/
theorem parseError_conditions_witness :
    querySelector "parsererror" docC7bad = some peC7 ∧
    parseNodeset freshState docC7bad "x.xml" [] =
      .error ("Failed to parse XML: " ++ textContent peC7) ∧
    parseNodeset freshState docC7miss "y.xml" [] = .error invalidNodesetMsg :=
  ⟨rfl, (parseError_conditions freshState docC7bad "x.xml" []).2.1 peC7 rfl,
    (parseError_conditions freshState docC7miss "y.xml" []).1.mpr ⟨rfl, rfl⟩⟩

/-- C7 (counterexample).  A well-formed document whose root element is
Wrapper -- it lacks a UANodeSet root element -- parses successfully, because
the source accepts a UANodeSet element anywhere in the document; the claim's
"exactly when ... lacking a UANodeSet root element" fails at this input. -/
theorem parseError_conditions_counterexample :
    docC7nested =
      XNode.elem "#document" [] [XNode.elem "Wrapper" [] [XNode.elem "UANodeSet" [] []]] ∧
    (parseNodeset freshState docC7nested "n.xml" []).isOk = true :=
  ⟨rfl, rfl⟩

/- ### Claim C9: namespace extraction in the file-import service. -/

theorem foldl_nsEntry (l : List (Nat × XNode)) (acc : List Namespace) :
    l.foldl
      (fun acc ie =>
        if jsTrim (textContent ie.2) ≠ "" then
          acc ++ [{ index := ie.1, uri := jsTrim (textContent ie.2) }]
        else acc)
      acc = acc ++ l.filterMap nsEntry := by
  induction l generalizing acc with
  | nil => simp
  | cons ie l ih =>
      rw [List.foldl_cons, List.filterMap_cons]
      by_cases h : jsTrim (textContent ie.2) = ""
      · rw [if_neg (by simp [h])]
        rw [show nsEntry ie = none from by rw [nsEntry, if_pos h]]
        exact ih acc
      · rw [if_pos (by simp [h])]
        rw [show nsEntry ie = some { index := ie.1, uri := jsTrim (textContent ie.2) } from
          by rw [nsEntry, if_neg h]]
        rw [ih]
        simp

/-- C9 (amended).  extractNamespaces reads only the
`UANodeSet > NamespaceUris > Uri` elements of the document and returns one
entry per such element whose trimmed text is nonempty; each entry's index is
the element's zero-based position among all matched Uri elements (the
forEach index), which advances even for skipped empty-text elements, so the
indices match the entries' positions in the returned list only when no
empty-text Uri element precedes them. -/
theorem extractNamespaces_entries (doc : XNode) :
    extractNamespaces doc = (docUaNsUris doc).enum.filterMap nsEntry := by
  rw [extractNamespaces, foldl_nsEntry]
  simp

/-- C9 (counterexample).  Two matched Uri elements, the first with empty
text: the result has a single entry -- not one per element -- and that
entry's index is 1 although it sits at position 0 of the returned list, so
the claimed "sequential indices 0, 1, 2, ... matching each entry's position"
fails. -/
theorem extractNamespaces_counterexample :
    (docUaNsUris docC9).length = 2 ∧
    extractNamespaces docC9 = [{ index := 1, uri := "http://example.com/UA" }] :=
  ⟨rfl, rfl⟩

end OpcUaModeler
